import Mathlib

set_option maxHeartbeats 1000000

/- Shallow embedding of src/movies-tiler.py.

   The OpenCV back ends are modelled as pure data.  A media stream is the
   list of raw frames that successive cv2.VideoCapture.read calls would
   deliver; an unopenable or empty stream is the empty list, because
   cv2.VideoCapture never raises on a bad path and read simply fails at
   once.  The display back end is an oracle assigning to each loop index
   the outcome of that iteration's imshow / waitKey / getWindowProperty
   calls. -/

structure RawFrame where
  w : Nat
  h : Nat
  tag : Nat
deriving DecidableEq

structure Frame where
  w : Nat
  h : Nat
  tag : Nat
deriving DecidableEq

/-- Models cv2.resize(frame, dim) on line 82: a pure stretch to the target
size, content (tag) preserved, aspect ratio ignored. -/
def cvResize (f : RawFrame) (dim : Nat × Nat) : Frame :=
  ⟨dim.1, dim.2, f.tag⟩

/-- State of one generator produced by get_frame_iterator (lines 64-84):
the `ended` flag, the `last_frame` cache (None until the first successful
decode), the read position of the capture handle, plus two instrumentation
counters: `reads` counts cap.read() calls (decode attempts) and `pulls`
counts next() calls on the generator. -/
structure SourceState where
  ended : Bool
  lastFrame : Option Frame
  cursor : Nat
  reads : Nat
  pulls : Nat
deriving DecidableEq

/-- Models constructing a source for one input path (line 67 and line 102):
cv2.VideoCapture(filePath) never raises and the generator body does not run
until the first next(), so construction always succeeds and ignores the
stream contents. -/
def mkSource (_stream : List RawFrame) : SourceState :=
  ⟨false, none, 0, 0, 0⟩

def initSource : SourceState := mkSource []

/-- One next() call on the generator of get_frame_iterator (lines 68-84):
if already ended, repeat the cached last frame with ended=true and do not
read; otherwise attempt one cap.read(): on failure mark ended and yield the
cached frame with ended=true; on success resize, yield with ended=false and
update the cache. -/
def nextFrame (stream : List RawFrame) (dim : Nat × Nat) (s : SourceState) :
    (Option Frame × Bool) × SourceState :=
  if s.ended then
    ((s.lastFrame, true), { s with pulls := s.pulls + 1 })
  else
    match stream[s.cursor]? with
    | none =>
        ((s.lastFrame, true),
         { s with ended := true, reads := s.reads + 1, pulls := s.pulls + 1 })
    | some raw =>
        let f := cvResize raw dim
        ((some f, false),
         ⟨false, some f, s.cursor + 1, s.reads + 1, s.pulls + 1⟩)

/-- n further next() calls on a source, keeping only the state. -/
def stepN (stream : List RawFrame) (dim : Nat × Nat) : Nat → SourceState → SourceState
  | 0, s => s
  | n + 1, s => stepN stream dim n (nextFrame stream dim s).2

/-- Sequencing of a Python list comprehension over fallible calls: the
result list if every call succeeds, failure if any call fails. -/
def listMapOpt {α β : Type} (f : α → Option β) : List α → Option (List β)
  | [] => some []
  | a :: l =>
    match f a, listMapOpt f l with
    | some b, some bs => some (b :: bs)
    | _, _ => none

/-- Models cv2.hconcat(row) on line 122: fails (raises) on an empty row, on
a None entry, or on mismatched heights; otherwise widths add up and the
height is shared. -/
def hconcat (cells : List (Option Frame)) : Option Frame :=
  match listMapOpt id cells with
  | none => none
  | some [] => none
  | some (f :: fs) =>
    if fs.all (fun g => g.h == f.h) then
      some ⟨((f :: fs).map Frame.w).sum, f.h, ((f :: fs).map Frame.tag).sum⟩
    else none

/-- Models cv2.vconcat(bands) on line 123: fails on an empty list, a None
band, or mismatched widths; otherwise heights add up and the width is
shared. -/
def vconcat (bands : List (Option Frame)) : Option Frame :=
  match listMapOpt id bands with
  | none => none
  | some [] => none
  | some (f :: fs) =>
    if fs.all (fun g => g.w == f.w) then
      some ⟨f.w, ((f :: fs).map Frame.h).sum, ((f :: fs).map Frame.tag).sum⟩
    else none

/-- Row-major grouping done by the nested row/col loops (lines 112-122):
row r takes the next `cols` pulled frames. -/
def toRows (cols : Nat) : Nat → List (Option Frame) → List (List (Option Frame))
  | 0, _ => []
  | r + 1, xs => xs.take cols :: toRows cols r (xs.drop cols)

/-- The composite build of one iteration (lines 112-123): hconcat each row,
then vconcat the bands. -/
def composeGrid (rows cols : Nat) (cells : List (Option Frame)) : Option Frame :=
  vconcat ((toRows cols rows cells).map hconcat)

/-- Pull one frame from each of the first n sources in fixed list order
(the `ix` walk of lines 108-121); `none` models the IndexError raised when
fewer than rows*cols iterators exist.  Sources beyond the first n are left
untouched, as in the code. -/
def pullN (dim : Nat × Nat) :
    Nat → List (List RawFrame) → List SourceState →
      Option (List (Option Frame × Bool) × List SourceState)
  | 0, _, sts => some ([], sts)
  | n + 1, stream :: ss, st :: sts =>
    match pullN dim n ss sts with
    | none => none
    | some (outs, sts1) =>
      let r := nextFrame stream dim st
      some (r.1 :: outs, r.2 :: sts1)
  | _ + 1, _, _ => none

/-- Outcome of this iteration's display-provider calls (lines 126-133):
whether imshow returned normally, what waitKey returned (none models a
cv2.error raised inside the try block), and what getWindowProperty
returned (none likewise models a cv2.error). -/
structure PreviewEvent where
  showOk : Bool
  wait : Option Int
  prop : Option Int
deriving DecidableEq

/-- Configuration reaching run(): decoded input streams (one per path),
args.resize, the grid, args.every, whether an output file and a preview
window were requested, and the display oracle. -/
structure Config where
  streams : List (List RawFrame)
  resize : Nat × Nat
  cols : Nat
  rows : Nat
  every : Nat
  output : Bool
  preview : Bool
  events : Nat → PreviewEvent

/-- Mutable state of the while loop in run() (lines 103-145): the per-source
generator states, the endeds dict as a list (empty before the first
iteration, fully rewritten each iteration), nb_frames, and the observable
sink histories: frames passed to writer.write and frames passed to
cv2.imshow, in order. -/
structure LoopState where
  srcStates : List SourceState
  endeds : List Bool
  nbFrames : Nat
  written : List Frame
  shown : List Frame
deriving DecidableEq

/-- Decimation gate of line 110: (nb_frames % args.every) == 0. -/
def doIt (every nbFrames : Nat) : Bool :=
  nbFrames % every == 0

inductive StepRes where
  | goOn (st : LoopState)
  | exhausted (st : LoopState)
  | cancelled (st : LoopState)
  | errored
deriving DecidableEq

/-- Lines 135-143: the gated writer.write dispatch, then the joint
exhaustion check `endeds.values() and all(endeds.values())`, then the
nb_frames increment on the continue path. -/
def afterDispatch (cfg : Config) (d : Bool) (img : Frame) (st : LoopState) : StepRes :=
  let st3 := if cfg.output && d then { st with written := st.written ++ [img] } else st
  if st3.endeds ≠ [] ∧ st3.endeds.all id = true then .exhausted st3
  else .goOn { st3 with nbFrames := st3.nbFrames + 1 }

/-- One iteration of the while loop (lines 107-145): pull a frame from every
source recording the ended flags, build the composite, run the gated preview
block (lines 125-133: a break on ESC, on a closed window, or on a cv2.error
raised by waitKey/getWindowProperty; an error raised by imshow itself is
outside the try and propagates), then the gated write and the exhaustion
check. -/
def loopStep (cfg : Config) (st : LoopState) : StepRes :=
  let d := doIt cfg.every st.nbFrames
  match pullN cfg.resize (cfg.rows * cfg.cols) cfg.streams st.srcStates with
  | none => .errored
  | some (outs, sts1) =>
    match composeGrid cfg.rows cfg.cols (outs.map Prod.fst) with
    | none => .errored
    | some img =>
      let st1 := { st with srcStates := sts1, endeds := outs.map Prod.snd }
      if cfg.preview && d then
        if (cfg.events st.nbFrames).showOk then
          let st2 := { st1 with shown := st1.shown ++ [img] }
          match (cfg.events st.nbFrames).wait with
          | none => .cancelled st2
          | some k =>
            if k == 27 then .cancelled st2
            else
              match (cfg.events st.nbFrames).prop with
              | none => .cancelled st2
              | some v =>
                if v == -1 then .cancelled st2
                else afterDispatch cfg d img st2
        else .errored
      else afterDispatch cfg d img st1

/-- Result of the while loop: `finished` / `interrupted` carry the final
loop state and correspond to the two values of the `finished` flag;
`errored` is an uncaught exception escaping the loop. -/
inductive RunResult where
  | finished (st : LoopState)
  | interrupted (st : LoopState)
  | errored
deriving DecidableEq

/-- The while loop of lines 107-145, fuelled: `none` means the loop is
still running after `fuel` iterations. -/
def runLoop (cfg : Config) : Nat → LoopState → Option RunResult
  | 0, _ => none
  | fuel + 1, st =>
    match loopStep cfg st with
    | .goOn st1 => runLoop cfg fuel st1
    | .exhausted st1 => some (.finished st1)
    | .cancelled st1 => some (.interrupted st1)
    | .errored => some .errored

/-- Loop state at line 107 on entry: one fresh generator per input path
(line 102), endeds = {}, nb_frames = 0, nothing dispatched yet. -/
def initLoop (cfg : Config) : LoopState :=
  ⟨cfg.streams.map (fun s => mkSource s), [], 0, [], []⟩

/-- Observable outcome of run() after the loop (lines 147-155): whether
writer.release was called, the file contents (the composites written, which
are kept on disk in every path), whether the interruption warning was
printed, and the process exit code. -/
structure ProgramOutcome where
  writerFinalized : Bool
  fileFrames : List Frame
  warned : Bool
  exitCode : Nat
deriving DecidableEq

/-- Lines 150-155: with a file sink the writer is always released and the
output path reported; if the loop did not finish naturally a warning goes
to stderr and the process exits 1; otherwise exit 0. -/
def epilogue (cfg : Config) (finished : Bool) (st : LoopState) : ProgramOutcome :=
  if cfg.output then
    ⟨true, st.written, !finished, if finished then 0 else 1⟩
  else
    ⟨false, [], false, 0⟩

/-- run() end to end (lines 87-155) under the given fuel: the loop followed
by the epilogue; an uncaught exception yields no orderly outcome. -/
def run (cfg : Config) (fuel : Nat) : Option (Option ProgramOutcome) :=
  match runLoop cfg fuel (initLoop cfg) with
  | none => none
  | some (.finished st) => some (some (epilogue cfg true st))
  | some (.interrupted st) => some (some (epilogue cfg false st))
  | some .errored => some none

/- ---------------------------------------------------------------------
   parse_geometry (lines 13-22) and its collaborators.
   --------------------------------------------------------------------- -/

/-- Python str.split with a one-character separator (line 14): split at
every occurrence, keeping empty parts. -/
def pySplit (sep : Char) : List Char → List (List Char)
  | [] => [[]]
  | c :: cs =>
    if c = sep then [] :: pySplit sep cs
    else
      match pySplit sep cs with
      | [] => [[c]]
      | p :: ps => (c :: p) :: ps

def digitsVal (l : List Char) : Nat :=
  l.foldl (fun a c => a * 10 + (c.toNat - '0'.toNat)) 0

/-- Models Python int() on the strings relevant here: an optional sign
followed by a nonempty run of decimal digits; anything else raises
ValueError (modelled as none). -/
def pyInt (s : List Char) : Option Int :=
  match s with
  | [] => none
  | c :: rest =>
    if c = '-' then
      if rest ≠ [] ∧ rest.all Char.isDigit then some (-(digitsVal rest : Int)) else none
    else if c = '+' then
      if rest ≠ [] ∧ rest.all Char.isDigit then some (digitsVal rest : Int) else none
    else if (c :: rest).all Char.isDigit then some (digitsVal (c :: rest) : Int)
    else none

/-- parse_geometry (lines 13-22): split on the letter x, convert every part
with int() (any ValueError, from a bad part or from unpacking a list whose
length is not two, is caught and turns into sys.exit(1), the error case
here).  No constraint on the sign or size of the two numbers. -/
def parse_geometry (s : List Char) : Except Unit (Int × Int) :=
  match listMapOpt pyInt (pySplit 'x' s) with
  | some [w, h] => .ok (w, h)
  | _ => .error ()

/- ---------------------------------------------------------------------
   Closed forms for the loop trajectory.
   --------------------------------------------------------------------- -/

/-- Frame at index t of a stream, resized. -/
def resizedAt (stream : List RawFrame) (dim : Nat × Nat) (t : Nat) : Option Frame :=
  (stream[t]?).map (fun raw => cvResize raw dim)

/-- The resized last frame of a stream, if any. -/
def lastResized (stream : List RawFrame) (dim : Nat × Nat) : Option Frame :=
  (stream.getLast?).map (fun raw => cvResize raw dim)

/-- What the t-th next() call on a fresh source yields: the t-th frame while
the stream lasts, afterwards the held last frame with ended=true. -/
def sourceOut (stream : List RawFrame) (dim : Nat × Nat) (t : Nat) : Option Frame × Bool :=
  if t < stream.length then (resizedAt stream dim t, false)
  else (lastResized stream dim, true)

/-- Source state after t next() calls on a fresh source. -/
def sourceStateAt (stream : List RawFrame) (dim : Nat × Nat) (t : Nat) : SourceState :=
  if t ≤ stream.length then
    ⟨false, if t = 0 then none else resizedAt stream dim (t - 1), t, t, t⟩
  else
    ⟨true, lastResized stream dim, stream.length, stream.length + 1, t⟩

/-- Greatest input stream length. -/
def maxLen (cfg : Config) : Nat :=
  (cfg.streams.map List.length).foldr Nat.max 0

def outsAt (cfg : Config) (t : Nat) : List (Option Frame × Bool) :=
  cfg.streams.map (fun s => sourceOut s cfg.resize t)

/-- The composite built at iteration t. -/
def imgAt (cfg : Config) (t : Nat) : Option Frame :=
  composeGrid cfg.rows cfg.cols ((outsAt cfg t).map Prod.fst)

/-- File-sink history after t complete iterations: the composites of the
gated iterations below t, in order. -/
def writtenAt (cfg : Config) (t : Nat) : List Frame :=
  if cfg.output then
    ((List.range t).filter (fun u => doIt cfg.every u)).filterMap (imgAt cfg)
  else []

/-- Preview history after t complete iterations. -/
def shownAt (cfg : Config) (t : Nat) : List Frame :=
  if cfg.preview then
    ((List.range t).filter (fun u => doIt cfg.every u)).filterMap (imgAt cfg)
  else []

/-- Loop state at the top of iteration t (t complete iterations done). -/
def stateAt (cfg : Config) (t : Nat) : LoopState :=
  ⟨cfg.streams.map (fun s => sourceStateAt s cfg.resize t),
   if t = 0 then [] else (outsAt cfg (t - 1)).map Prod.snd,
   t, writtenAt cfg t, shownAt cfg t⟩

/-- Loop state carried out of iteration t by a break (exhaustion path):
sources stepped, endeds rewritten, sinks updated, nb_frames not yet
incremented. -/
def postState (cfg : Config) (t : Nat) : LoopState :=
  ⟨cfg.streams.map (fun s => sourceStateAt s cfg.resize (t + 1)),
   (outsAt cfg t).map Prod.snd,
   t, writtenAt cfg (t + 1), shownAt cfg (t + 1)⟩

/-- Final loop state of an uncancelled run. -/
def finalState (cfg : Config) : LoopState :=
  postState cfg (maxLen cfg)

/-- Loop state carried out of iteration k by a preview cancellation break:
shown is already extended, written is not (the break precedes line 136). -/
def cancelStateAt (cfg : Config) (k : Nat) : LoopState :=
  ⟨cfg.streams.map (fun s => sourceStateAt s cfg.resize (k + 1)),
   (outsAt cfg k).map Prod.snd,
   k, writtenAt cfg k, shownAt cfg (k + 1)⟩

/-- A display event that triggers none of the three exits of the preview
block. -/
def benignEvent (e : PreviewEvent) : Prop :=
  e.showOk = true ∧ e.wait ≠ none ∧ e.wait ≠ some 27 ∧ e.prop ≠ none ∧ e.prop ≠ some (-1)

instance (e : PreviewEvent) : Decidable (benignEvent e) := by
  unfold benignEvent; infer_instance

/-- A display event that triggers one of the three cancellation exits of
lines 128-133: waitKey raises cv2.error (caught), waitKey returns ESC, or
waitKey returns some other key and then getWindowProperty raises cv2.error
(caught) or reports the window closed (-1). -/
def cancelEvent (e : PreviewEvent) : Prop :=
  e.showOk = true ∧
  (e.wait = none ∨ e.wait = some 27 ∨
    (e.wait ≠ none ∧ e.wait ≠ some 27 ∧ (e.prop = none ∨ e.prop = some (-1))))

instance (e : PreviewEvent) : Decidable (cancelEvent e) := by
  unfold cancelEvent; infer_instance

/-- The while loop restricted to its continue path: the state after n
iterations none of which broke out. -/
def iterN (cfg : Config) : Nat → LoopState → Option LoopState
  | 0, st => some st
  | n + 1, st =>
    match loopStep cfg st with
    | .goOn st1 => iterN cfg n st1
    | _ => none

/-- The composite that the iteration starting from state st builds
(lines 112-123), before any dispatch: the same pull-then-compose chain that
loopStep runs. -/
def builtImg (cfg : Config) (st : LoopState) : Option Frame :=
  match pullN cfg.resize (cfg.rows * cfg.cols) cfg.streams st.srcStates with
  | none => none
  | some p => composeGrid cfg.rows cfg.cols (p.1.map Prod.fst)

/- Concrete scenario material for witnesses and counterexamples. -/

/-- A stream of `len` decodable raw frames with distinguishable contents. -/
def mkStream (len srcTag : Nat) : List RawFrame :=
  (List.range len).map (fun i => ⟨100, 50, srcTag * 100 + i⟩)

def benignEv : PreviewEvent := ⟨true, some 0, some 0⟩

def escEv : PreviewEvent := ⟨true, some 27, some 0⟩

def showErrEv : PreviewEvent := ⟨false, some 0, some 0⟩

/-- Four sources of lengths 3, 5, 4, 6 on a 2 by 2 grid, stride 1, file
sink only: the spec scenario behind C1. -/
def cfg0 : Config :=
  { streams := [mkStream 3 1, mkStream 5 2, mkStream 4 3, mkStream 6 4],
    resize := (8, 8), cols := 2, rows := 2, every := 1,
    output := true, preview := false, events := fun _ => benignEv }

/-- One source of length 9 (a ten-iteration run), stride 3, file sink
only: the spec scenario behind C6. -/
def cfg1 : Config :=
  { streams := [mkStream 9 1], resize := (4, 4), cols := 1, rows := 1, every := 3,
    output := true, preview := false, events := fun _ => benignEv }

/-- One source of length 10, stride 1, file sink and preview, ESC pressed
at iteration 4: the spec scenario behind C2. -/
def cfg2 : Config :=
  { streams := [mkStream 10 7], resize := (4, 4), cols := 1, rows := 1, every := 1,
    output := true, preview := true,
    events := fun u => if u < 4 then benignEv else escEv }

/-- A preview run whose display provider raises inside imshow from the
start: the C10 scenario. -/
def cfg3 : Config :=
  { streams := [mkStream 3 5], resize := (4, 4), cols := 1, rows := 1, every := 1,
    output := false, preview := true, events := fun _ => showErrEv }

/-- Same run as cfg2 except that the cancellation signal at iteration 4 is
the user closing the preview window (getWindowProperty returns -1) rather
than ESC. -/
def closeEv : PreviewEvent := ⟨true, some 0, some (-1)⟩

def cfg5 : Config :=
  { streams := [mkStream 10 7], resize := (4, 4), cols := 1, rows := 1, every := 1,
    output := true, preview := true,
    events := fun u => if u < 4 then benignEv else closeEv }

/-- One single-frame source with file sink and preview, ESC pressed at
iteration 1 (after one composite is on file): the C8 witness scenario. -/
def cfg4 : Config :=
  { streams := [mkStream 1 6], resize := (1, 1), cols := 1, rows := 1, every := 1,
    output := true, preview := true,
    events := fun u => if u = 0 then benignEv else escEv }

/- ---------------------------------------------------------------------
   Per-source lemmas.
   --------------------------------------------------------------------- -/

theorem nextFrame_stateAt (stream : List RawFrame) (dim : Nat × Nat) (t : Nat) :
    nextFrame stream dim (sourceStateAt stream dim t)
      = (sourceOut stream dim t, sourceStateAt stream dim (t + 1)) := by
  rcases Nat.lt_trichotomy t stream.length with hlt | heq | hgt
  · have ht : t ≤ stream.length := Nat.le_of_lt hlt
    have ht1 : t + 1 ≤ stream.length := hlt
    have hget : stream[t]? = some (stream.get ⟨t, hlt⟩) := List.getElem?_eq_getElem hlt
    simp [sourceStateAt, sourceOut, nextFrame, resizedAt, ht, ht1, hlt, hget]
  · subst heq
    have hget : stream[stream.length]? = none := List.getElem?_eq_none (Nat.le_refl _)
    have hcache :
        (if stream = [] then none else resizedAt stream dim (stream.length - 1))
          = lastResized stream dim := by
      by_cases h0 : stream = []
      · subst h0; simp [lastResized]
      · simp [h0, resizedAt, lastResized, List.getLast?_eq_getElem?]
    simp [sourceStateAt, sourceOut, nextFrame, hget, hcache]
  · have h1 : ¬ t ≤ stream.length := Nat.not_le_of_lt hgt
    have h2 : ¬ t + 1 ≤ stream.length := by omega
    have h3 : ¬ t < stream.length := by omega
    simp [sourceStateAt, sourceOut, nextFrame, h1, h2, h3]

theorem sourceStateAt_zero (stream : List RawFrame) (dim : Nat × Nat) :
    sourceStateAt stream dim 0 = mkSource stream := by
  simp [sourceStateAt, mkSource]

/-- A call on an already-ended source repeats the cache without reading. -/
theorem nextFrame_ended (stream : List RawFrame) (dim : Nat × Nat) (s : SourceState)
    (h : s.ended = true) :
    nextFrame stream dim s = ((s.lastFrame, true), { s with pulls := s.pulls + 1 }) := by
  simp [nextFrame, h]

/-- A call that reports ended=true leaves behind an ended state whose cache
is exactly the frame just returned, and whose read count moves at most on
this very call. -/
theorem nextFrame_true_post (stream : List RawFrame) (dim : Nat × Nat) (s : SourceState)
    (h : ((nextFrame stream dim s).1).2 = true) :
    ((nextFrame stream dim s).2).ended = true ∧
    ((nextFrame stream dim s).2).lastFrame = (nextFrame stream dim s).1.1 := by
  by_cases he : s.ended = true
  · simp [nextFrame, he]
  · simp only [Bool.not_eq_true] at he
    cases hget : stream[s.cursor]? with
    | none => simp [nextFrame, he, hget]
    | some raw => simp [nextFrame, he, hget] at h

/-- Stepping an ended source any number of times changes nothing but the
pull counter: the flag, the cache and the read count are frozen. -/
theorem stepN_ended_frozen (stream : List RawFrame) (dim : Nat × Nat) :
    ∀ (n : Nat) (s : SourceState), s.ended = true →
      (stepN stream dim n s).ended = true ∧
      (stepN stream dim n s).lastFrame = s.lastFrame ∧
      (stepN stream dim n s).reads = s.reads
  | 0, s, h => ⟨h, rfl, rfl⟩
  | n + 1, s, h => by
    have hn := nextFrame_ended stream dim s h
    have := stepN_ended_frozen stream dim n { s with pulls := s.pulls + 1 } h
    simpa [stepN, hn] using this

/-- Claim C4 (confirmed): once a next() call has returned isPastEnd=true,
every later call on that source — here the call after n further steps —
returns the very same cached frame with isPastEnd=true, and the decode
counter never moves again (the generator of lines 68-72 short-circuits
before cap.read). -/
theorem claim4_idempotent_tail (stream : List RawFrame) (dim : Nat × Nat)
    (s : SourceState) (n : Nat)
    (h : ((nextFrame stream dim s).1).2 = true) :
    (nextFrame stream dim (stepN stream dim n (nextFrame stream dim s).2)).1
      = ((nextFrame stream dim s).1.1, true) ∧
    (stepN stream dim n (nextFrame stream dim s).2).reads
      = ((nextFrame stream dim s).2).reads := by
  obtain ⟨hend, hcache⟩ := nextFrame_true_post stream dim s h
  obtain ⟨h1, h2, h3⟩ := stepN_ended_frozen stream dim n (nextFrame stream dim s).2 hend
  refine ⟨?_, h3⟩
  rw [nextFrame_ended stream dim _ h1, h2, hcache]

/-- Witness for C4: a one-frame source pulled once is at its end; the next
call reports isPastEnd=true, and five steps later the tail is unchanged. -/
theorem claim4_witness :
    ((nextFrame [⟨3, 3, 9⟩] (2, 2) (sourceStateAt [⟨3, 3, 9⟩] (2, 2) 1)).1).2 = true ∧
    (nextFrame [⟨3, 3, 9⟩] (2, 2)
        (stepN [⟨3, 3, 9⟩] (2, 2) 5 (nextFrame [⟨3, 3, 9⟩] (2, 2)
          (sourceStateAt [⟨3, 3, 9⟩] (2, 2) 1)).2)).1
      = ((nextFrame [⟨3, 3, 9⟩] (2, 2) (sourceStateAt [⟨3, 3, 9⟩] (2, 2) 1)).1.1, true) ∧
    (stepN [⟨3, 3, 9⟩] (2, 2) 5 (nextFrame [⟨3, 3, 9⟩] (2, 2)
        (sourceStateAt [⟨3, 3, 9⟩] (2, 2) 1)).2).reads
      = ((nextFrame [⟨3, 3, 9⟩] (2, 2) (sourceStateAt [⟨3, 3, 9⟩] (2, 2) 1)).2).reads := by
  refine ⟨by decide, ?_, ?_⟩
  · exact (claim4_idempotent_tail [⟨3, 3, 9⟩] (2, 2) _ 5 (by decide)).1
  · exact (claim4_idempotent_tail [⟨3, 3, 9⟩] (2, 2) _ 5 (by decide)).2

/-- On a stream with no decodable frame the cache can never fill. -/
theorem nextFrame_empty (dim : Nat × Nat) (s : SourceState) (h : s.lastFrame = none) :
    (nextFrame [] dim s).1 = (none, true) ∧ ((nextFrame [] dim s).2).lastFrame = none := by
  by_cases he : s.ended = true
  · simp [nextFrame, he, h]
  · simp only [Bool.not_eq_true] at he
    simp [nextFrame, he, h]

theorem stepN_empty_cache (dim : Nat × Nat) :
    ∀ (n : Nat) (s : SourceState), s.lastFrame = none →
      (stepN [] dim n s).lastFrame = none
  | 0, _, h => h
  | n + 1, s, h => by
    have := (nextFrame_empty dim s h).2
    simpa [stepN] using stepN_empty_cache dim n (nextFrame [] dim s).2 this

/-- Claim C3 (counterexample): for a path whose stream cannot be opened —
cv2.VideoCapture raises nothing and is never checked with isOpened, so such
a stream is exactly the stream with no readable frames — construction
succeeds and hands back the ordinary fresh source state, and the first
next() call does yield an output, the null frame with isPastEnd=true.
There is no construction-time failure, refuting the claim that the source
fails fast instead of later yielding frames. -/
theorem claim3_counterexample :
    mkSource ([] : List RawFrame) = initSource ∧
    (nextFrame [] (8, 8) (mkSource [])).1 = (none, true) := by
  constructor
  · rfl
  · decide

/-- Claim C3 (amended): construction of a FrameSource never fails, even for
an unopenable stream; the failure surfaces only inside the loop: every
next() call on such a source, at any depth n, yields the null frame with
isPastEnd=true (which then blows up the composite build, not the startup). -/
theorem claim3_construction_never_fails (dim : Nat × Nat) (n : Nat) :
    mkSource ([] : List RawFrame) = initSource ∧
    (nextFrame [] dim (stepN [] dim n (mkSource []))).1 = (none, true) := by
  refine ⟨rfl, ?_⟩
  have hc : (stepN [] dim n (mkSource [])).lastFrame = none :=
    stepN_empty_cache dim n _ rfl
  exact (nextFrame_empty dim _ hc).1

/- ---------------------------------------------------------------------
   parse_geometry lemmas and claim C9.
   --------------------------------------------------------------------- -/

theorem pySplit_no_sep (sep : Char) :
    ∀ (B : List Char), sep ∉ B → pySplit sep B = [B]
  | [], _ => rfl
  | c :: cs, h => by
    have hc : ¬ c = sep := fun hh => h (hh ▸ List.mem_cons_self c cs)
    have ih := pySplit_no_sep sep cs (fun hm => h (List.mem_cons_of_mem c hm))
    simp [pySplit, hc, ih]

theorem pySplit_append (sep : Char) :
    ∀ (A B : List Char), sep ∉ A → sep ∉ B →
      pySplit sep (A ++ sep :: B) = [A, B]
  | [], B, _, hB => by
    simp [pySplit, pySplit_no_sep sep B hB]
  | c :: A, B, hA, hB => by
    have hc : ¬ c = sep := fun hh => hA (hh ▸ List.mem_cons_self c A)
    have ih := pySplit_append sep A B (fun hm => hA (List.mem_cons_of_mem c hm)) hB
    simp [pySplit, hc, ih]

theorem pyInt_no_x {s : List Char} {a : Int} (h : pyInt s = some a) : 'x' ∉ s := by
  intro hx
  cases s with
  | nil => simp [pyInt] at h
  | cons c rest =>
    by_cases h1 : c = '-'
    · rw [pyInt, if_pos h1] at h
      by_cases h2 : rest ≠ [] ∧ rest.all Char.isDigit
      · rcases List.mem_cons.mp hx with he | hm
        · rw [h1] at he; exact absurd he (by decide)
        · have := List.all_eq_true.mp h2.2 _ hm
          exact absurd this (by decide)
      · rw [if_neg h2] at h; exact Option.noConfusion h
    · rw [pyInt, if_neg h1] at h
      by_cases h1p : c = '+'
      · rw [if_pos h1p] at h
        by_cases h2 : rest ≠ [] ∧ rest.all Char.isDigit
        · rcases List.mem_cons.mp hx with he | hm
          · rw [h1p] at he; exact absurd he (by decide)
          · have := List.all_eq_true.mp h2.2 _ hm
            exact absurd this (by decide)
        · rw [if_neg h2] at h; exact Option.noConfusion h
      · rw [if_neg h1p] at h
        by_cases h2 : (c :: rest).all Char.isDigit
        · have := List.all_eq_true.mp h2 _ hx
          exact absurd this (by decide)
        · rw [if_neg (by simpa using h2)] at h; exact Option.noConfusion h

/-- Claim C9 (confirmed): for a string AxB built from two optionally signed
decimal numerals A and B, parse_geometry returns exactly (int(A), int(B));
nothing on lines 13-22 rejects zero or negative values, so the Dimension
positivity invariant is not enforced at this boundary. -/
theorem claim9_parse_geometry_no_validation (A B : List Char) (a b : Int)
    (hA : pyInt A = some a) (hB : pyInt B = some b) :
    parse_geometry (A ++ 'x' :: B) = .ok (a, b) := by
  unfold parse_geometry
  rw [pySplit_append 'x' A B (pyInt_no_x hA) (pyInt_no_x hB)]
  simp [listMapOpt, hA, hB]

/-- Witness for C9 at the degenerate geometry 0x-3: both parts are
numerals, one of them zero and one negative, and parsing succeeds. -/
theorem claim9_witness :
    pyInt ['0'] = some 0 ∧ pyInt ['-', '3'] = some (-3) ∧
    parse_geometry (['0'] ++ 'x' :: ['-', '3']) = .ok (0, -3) := by
  refine ⟨by decide, by decide, ?_⟩
  exact claim9_parse_geometry_no_validation ['0'] ['-', '3'] 0 (-3) (by decide) (by decide)

/- ---------------------------------------------------------------------
   Composite dimension lemmas and claim C5.
   --------------------------------------------------------------------- -/

theorem listMapOpt_id_forall {P : Frame → Prop} :
    ∀ (cells : List (Option Frame)),
      (∀ c ∈ cells, ∃ g, c = some g ∧ P g) →
      ∃ fs, listMapOpt id cells = some fs ∧ fs.length = cells.length ∧ ∀ f ∈ fs, P f
  | [], _ => ⟨[], rfl, rfl, by simp⟩
  | c :: cells, h => by
    obtain ⟨g, hg, hPg⟩ := h c (List.mem_cons_self c cells)
    obtain ⟨fs, h1, h2, h3⟩ :=
      listMapOpt_id_forall cells (fun x hx => h x (List.mem_cons_of_mem c hx))
    refine ⟨g :: fs, by simp [listMapOpt, hg, h1], by simp [h2], ?_⟩
    intro f hf
    rcases List.mem_cons.mp hf with he | hm
    · exact he ▸ hPg
    · exact h3 f hm

theorem sum_const_list : ∀ (l : List Nat) (c : Nat), (∀ x ∈ l, x = c) →
    l.sum = l.length * c
  | [], _, _ => by simp
  | x :: l, c, h => by
    have hx := h x (List.mem_cons_self x l)
    have ih := sum_const_list l c (fun y hy => h y (List.mem_cons_of_mem x hy))
    simp only [List.sum_cons, List.length_cons, ih, hx]
    ring

theorem hconcat_uniform (W H n : Nat) (cells : List (Option Frame))
    (hn : cells.length = n) (hpos : 0 < n)
    (hall : ∀ c ∈ cells, ∃ g, c = some g ∧ g.w = W ∧ g.h = H) :
    ∃ tg, hconcat cells = some ⟨n * W, H, tg⟩ := by
  obtain ⟨fs, h1, h2, h3⟩ := listMapOpt_id_forall cells hall
  cases fs with
  | nil =>
    rw [← hn, ← h2] at hpos
    exact absurd hpos (by simp)
  | cons f rest =>
    have hf := h3 f (List.mem_cons_self f rest)
    have hallh : rest.all (fun g => g.h == f.h) = true := by
      rw [List.all_eq_true]
      intro g hg
      have := (h3 g (List.mem_cons_of_mem f hg)).2
      simp [this, hf.2]
    have hlen2 : rest.length + 1 = n := by
      have h2c := h2
      simp only [List.length_cons] at h2c
      omega
    have hw : ((f :: rest).map Frame.w).sum = n * W := by
      have hc : ∀ x ∈ (f :: rest).map Frame.w, x = W := by
        intro x hx
        obtain ⟨g, hg, hgx⟩ := List.mem_map.mp hx
        exact hgx ▸ (h3 g hg).1
      rw [sum_const_list _ W hc]
      simp [hlen2]
    have hw2 : f.w + (rest.map Frame.w).sum = n * W := by simpa using hw
    refine ⟨((f :: rest).map Frame.tag).sum, ?_⟩
    simp [hconcat, h1, hf.2, hw2]
    exact fun g hg => (h3 g (List.mem_cons_of_mem f hg)).2

theorem vconcat_uniform (W H n : Nat) (bands : List (Option Frame))
    (hn : bands.length = n) (hpos : 0 < n)
    (hall : ∀ b ∈ bands, ∃ g, b = some g ∧ g.w = W ∧ g.h = H) :
    ∃ tg, vconcat bands = some ⟨W, n * H, tg⟩ := by
  obtain ⟨fs, h1, h2, h3⟩ := listMapOpt_id_forall bands hall
  cases fs with
  | nil =>
    rw [← hn, ← h2] at hpos
    exact absurd hpos (by simp)
  | cons f rest =>
    have hf := h3 f (List.mem_cons_self f rest)
    have hallw : rest.all (fun g => g.w == f.w) = true := by
      rw [List.all_eq_true]
      intro g hg
      have := (h3 g (List.mem_cons_of_mem f hg)).1
      simp [this, hf.1]
    have hlen2 : rest.length + 1 = n := by
      have h2c := h2
      simp only [List.length_cons] at h2c
      omega
    have hh : ((f :: rest).map Frame.h).sum = n * H := by
      have hc : ∀ x ∈ (f :: rest).map Frame.h, x = H := by
        intro x hx
        obtain ⟨g, hg, hgx⟩ := List.mem_map.mp hx
        exact hgx ▸ (h3 g hg).2
      rw [sum_const_list _ H hc]
      simp [hlen2]
    have hh2 : f.h + (rest.map Frame.h).sum = n * H := by simpa using hh
    refine ⟨((f :: rest).map Frame.tag).sum, ?_⟩
    simp [vconcat, h1, hf.1, hh2]
    exact fun g hg => (h3 g (List.mem_cons_of_mem f hg)).1

theorem toRows_spec (cols : Nat) :
    ∀ (rows : Nat) (cells : List (Option Frame)), cells.length = rows * cols →
      (toRows cols rows cells).length = rows ∧
      ∀ row ∈ toRows cols rows cells, row.length = cols ∧ ∀ c ∈ row, c ∈ cells
  | 0, cells, _ => ⟨rfl, by simp [toRows]⟩
  | rows + 1, cells, h => by
    have hmul : (rows + 1) * cols = rows * cols + cols := Nat.succ_mul rows cols
    have hlen : cols ≤ cells.length := by omega
    have hdrop : (cells.drop cols).length = rows * cols := by
      simp only [List.length_drop]
      omega
    obtain ⟨ih1, ih2⟩ := toRows_spec cols rows (cells.drop cols) hdrop
    refine ⟨by simp [toRows, ih1], ?_⟩
    intro row hrow
    simp only [toRows, List.mem_cons] at hrow
    rcases hrow with he | hm
    · subst he
      refine ⟨by simp [List.length_take]; omega, ?_⟩
      intro c hc
      exact List.take_subset _ _ hc
    · obtain ⟨hl, hs⟩ := ih2 row hm
      exact ⟨hl, fun c hc => List.drop_subset _ _ (hs c hc)⟩

theorem composeGrid_uniform (W H rows cols : Nat) (cells : List (Option Frame))
    (hlen : cells.length = rows * cols) (hr : 0 < rows) (hc : 0 < cols)
    (hall : ∀ c ∈ cells, ∃ g, c = some g ∧ g.w = W ∧ g.h = H) :
    ∃ tg, composeGrid rows cols cells = some ⟨cols * W, rows * H, tg⟩ := by
  obtain ⟨hlenr, hrows⟩ := toRows_spec cols rows cells hlen
  have hbands : ∀ b ∈ (toRows cols rows cells).map hconcat,
      ∃ g, b = some g ∧ g.w = cols * W ∧ g.h = H := by
    intro b hb
    obtain ⟨row, hrowm, hbe⟩ := List.mem_map.mp hb
    obtain ⟨hrl, hrs⟩ := hrows row hrowm
    obtain ⟨tg, htg⟩ := hconcat_uniform W H cols row hrl hc (fun c hc2 => hall c (hrs c hc2))
    exact ⟨⟨cols * W, H, tg⟩, by rw [← hbe, htg], rfl, rfl⟩
  obtain ⟨tg, htg⟩ := vconcat_uniform (cols * W) H rows
    ((toRows cols rows cells).map hconcat) (by simp [hlenr]) hr hbands
  exact ⟨tg, by simpa [composeGrid] using htg⟩

/-- Every frame a nonempty source yields, live or held, has the target
size. -/
theorem sourceOut_frame (s : List RawFrame) (dim : Nat × Nat) (t : Nat) (hne : s ≠ []) :
    ∃ g, (sourceOut s dim t).1 = some g ∧ g.w = dim.1 ∧ g.h = dim.2 := by
  by_cases h : t < s.length
  · refine ⟨cvResize (s.get ⟨t, h⟩) dim, ?_, rfl, rfl⟩
    simp [sourceOut, h, resizedAt, List.getElem?_eq_getElem h]
  · refine ⟨cvResize (s.getLast hne) dim, ?_, rfl, rfl⟩
    simp [sourceOut, h, lastResized, List.getLast?_eq_getLast s hne]

theorem pullN_closed (dim : Nat × Nat) :
    ∀ (streams : List (List RawFrame)) (t : Nat),
      pullN dim streams.length streams (streams.map (fun s => sourceStateAt s dim t)) =
        some (streams.map (fun s => sourceOut s dim t),
              streams.map (fun s => sourceStateAt s dim (t + 1)))
  | [], _ => rfl
  | s :: ss, t => by
    have ih := pullN_closed dim ss t
    simp [pullN, ih, nextFrame_stateAt]

/-- At every iteration over nonempty sources the composite exists and has
the full grid dimension. -/
theorem imgAt_exists (cfg : Config) (t : Nat)
    (Hn : cfg.streams.length = cfg.rows * cfg.cols)
    (Hr : 0 < cfg.rows) (Hc : 0 < cfg.cols)
    (Hne : ∀ s ∈ cfg.streams, s ≠ []) :
    ∃ g, imgAt cfg t = some g ∧
      g.w = cfg.cols * cfg.resize.1 ∧ g.h = cfg.rows * cfg.resize.2 := by
  have hall : ∀ c ∈ (outsAt cfg t).map Prod.fst,
      ∃ g, c = some g ∧ g.w = cfg.resize.1 ∧ g.h = cfg.resize.2 := by
    intro c hcm
    obtain ⟨o, ho, hoe⟩ := List.mem_map.mp hcm
    obtain ⟨s, hs, hse⟩ := List.mem_map.mp ho
    obtain ⟨g, hg1, hg2⟩ := sourceOut_frame s cfg.resize t (Hne s hs)
    exact ⟨g, by rw [← hoe, ← hse, hg1], hg2⟩
  have hlen : ((outsAt cfg t).map Prod.fst).length = cfg.rows * cfg.cols := by
    simp [outsAt, Hn]
  obtain ⟨tg, htg⟩ :=
    composeGrid_uniform cfg.resize.1 cfg.resize.2 cfg.rows cfg.cols
      ((outsAt cfg t).map Prod.fst) hlen Hr Hc hall
  exact ⟨⟨cfg.cols * cfg.resize.1, cfg.rows * cfg.resize.2, tg⟩, htg, rfl, rfl⟩

/-- Claim C5 (confirmed): the composite built by the iteration reached
after t complete iterations is exactly imgAt, it exists, and it always has
dimension (cols times target width, rows times target height), no matter
which sources are already exhausted and holding. -/
theorem claim5_composite_dims (cfg : Config) (t : Nat)
    (Hn : cfg.streams.length = cfg.rows * cfg.cols)
    (Hr : 0 < cfg.rows) (Hc : 0 < cfg.cols)
    (Hne : ∀ s ∈ cfg.streams, s ≠ []) :
    builtImg cfg (stateAt cfg t) = imgAt cfg t ∧
    ∃ g, imgAt cfg t = some g ∧
      g.w = cfg.cols * cfg.resize.1 ∧ g.h = cfg.rows * cfg.resize.2 := by
  constructor
  · unfold builtImg stateAt
    rw [← Hn, pullN_closed]
    rfl
  · exact imgAt_exists cfg t Hn Hr Hc Hne

/-- Witness for C5 on the 2 by 2 scenario at iteration 2, where source 0 is
already holding its last frame: the composite is 16 by 16. -/
theorem claim5_witness :
    cfg0.streams.length = cfg0.rows * cfg0.cols ∧ 0 < cfg0.rows ∧ 0 < cfg0.cols ∧
    (∀ s ∈ cfg0.streams, s ≠ []) ∧
    (builtImg cfg0 (stateAt cfg0 3) = imgAt cfg0 3 ∧
      ∃ g, imgAt cfg0 3 = some g ∧
        g.w = cfg0.cols * cfg0.resize.1 ∧ g.h = cfg0.rows * cfg0.resize.2) := by
  refine ⟨by decide, by decide, by decide, by decide, ?_⟩
  exact claim5_composite_dims cfg0 3 (by decide) (by decide) (by decide) (by decide)

/- ---------------------------------------------------------------------
   Trajectory of the driver loop.
   --------------------------------------------------------------------- -/

theorem foldr_max_le (b : Nat) :
    ∀ (l : List Nat), l.foldr Nat.max 0 ≤ b ↔ ∀ x ∈ l, x ≤ b
  | [] => by simp
  | x :: l => by
    simp [List.foldr_cons, Nat.max_le, foldr_max_le b l]

theorem maxLen_le_iff (cfg : Config) (t : Nat) :
    maxLen cfg ≤ t ↔ ∀ s ∈ cfg.streams, s.length ≤ t := by
  unfold maxLen
  rw [foldr_max_le]
  constructor
  · intro h s hs
    exact h s.length (List.mem_map.mpr ⟨s, hs, rfl⟩)
  · intro h x hx
    obtain ⟨s, hs, he⟩ := List.mem_map.mp hx
    exact he ▸ h s hs

theorem sourceOut_snd (s : List RawFrame) (dim : Nat × Nat) (t : Nat) :
    (sourceOut s dim t).2 = decide (s.length ≤ t) := by
  by_cases h : t < s.length
  · have h2 : ¬ s.length ≤ t := by omega
    simp [sourceOut, h, h2]
  · have h2 : s.length ≤ t := by omega
    simp [sourceOut, h, h2]

theorem endeds_all_iff (cfg : Config) (t : Nat) :
    ((outsAt cfg t).map Prod.snd).all id = true ↔ maxLen cfg ≤ t := by
  rw [maxLen_le_iff]
  simp [outsAt, List.all_eq_true, sourceOut_snd]

theorem streams_ne_nil (cfg : Config)
    (Hn : cfg.streams.length = cfg.rows * cfg.cols)
    (Hr : 0 < cfg.rows) (Hc : 0 < cfg.cols) :
    cfg.streams ≠ [] := by
  have : 0 < cfg.streams.length := by
    rw [Hn]; exact Nat.mul_pos Hr Hc
  exact List.length_pos.mp this

theorem endeds_ne_nil (cfg : Config) (t : Nat)
    (Hn : cfg.streams.length = cfg.rows * cfg.cols)
    (Hr : 0 < cfg.rows) (Hc : 0 < cfg.cols) :
    (outsAt cfg t).map Prod.snd ≠ [] := by
  simp [outsAt, streams_ne_nil cfg Hn Hr Hc]

theorem writtenAt_succ (cfg : Config) (t : Nat) (g : Frame)
    (himg : imgAt cfg t = some g) :
    writtenAt cfg (t + 1) =
      if cfg.output && doIt cfg.every t then writtenAt cfg t ++ [g]
      else writtenAt cfg t := by
  cases ho : cfg.output with
  | false => simp [writtenAt, ho]
  | true =>
    simp only [writtenAt, ho, if_true, Bool.true_and]
    rw [List.range_succ, List.filter_append, List.filterMap_append]
    cases hd : doIt cfg.every t with
    | false => simp [hd]
    | true => simp [hd, himg]

theorem shownAt_succ (cfg : Config) (t : Nat) (g : Frame)
    (himg : imgAt cfg t = some g) :
    shownAt cfg (t + 1) =
      if cfg.preview && doIt cfg.every t then shownAt cfg t ++ [g]
      else shownAt cfg t := by
  cases hp : cfg.preview with
  | false => simp [shownAt, hp]
  | true =>
    simp only [shownAt, hp, if_true, Bool.true_and]
    rw [List.range_succ, List.filter_append, List.filterMap_append]
    cases hd : doIt cfg.every t with
    | false => simp [hd]
    | true => simp [hd, himg]

theorem stateAt_zero (cfg : Config) : stateAt cfg 0 = initLoop cfg := by
  simp [stateAt, initLoop, writtenAt, shownAt, sourceStateAt_zero]

theorem stateAt_succ_eq (cfg : Config) (t : Nat) :
    stateAt cfg (t + 1) =
      ⟨cfg.streams.map (fun s => sourceStateAt s cfg.resize (t + 1)),
       (outsAt cfg t).map Prod.snd, t + 1,
       writtenAt cfg (t + 1), shownAt cfg (t + 1)⟩ := by
  simp [stateAt]

theorem afterDispatch_closed (cfg : Config) (t : Nat) (d : Bool) (g : Frame)
    (sh : List Frame)
    (hwr : (if cfg.output && d then writtenAt cfg t ++ [g] else writtenAt cfg t)
            = writtenAt cfg (t + 1))
    (Hn : cfg.streams.length = cfg.rows * cfg.cols)
    (Hr : 0 < cfg.rows) (Hc : 0 < cfg.cols) :
    afterDispatch cfg d g
      ⟨cfg.streams.map (fun s => sourceStateAt s cfg.resize (t + 1)),
       (outsAt cfg t).map Prod.snd, t, writtenAt cfg t, sh⟩ =
      if maxLen cfg ≤ t then
        .exhausted ⟨cfg.streams.map (fun s => sourceStateAt s cfg.resize (t + 1)),
          (outsAt cfg t).map Prod.snd, t, writtenAt cfg (t + 1), sh⟩
      else
        .goOn ⟨cfg.streams.map (fun s => sourceStateAt s cfg.resize (t + 1)),
          (outsAt cfg t).map Prod.snd, t + 1, writtenAt cfg (t + 1), sh⟩ := by
  have hne := endeds_ne_nil cfg t Hn Hr Hc
  rw [← hwr]
  unfold afterDispatch
  by_cases hM : maxLen cfg ≤ t
  · have hallT := (endeds_all_iff cfg t).mpr hM
    cases hw : (cfg.output && d) with
    | true => simp [hw, hne, hallT, hM]
    | false => simp [hw, hne, hallT, hM]
  · have hallF : ¬ ((outsAt cfg t).map Prod.snd).all id = true :=
      fun hh => hM ((endeds_all_iff cfg t).mp hh)
    cases hw : (cfg.output && d) with
    | true => simp [hw, hne, hallF, hM]
    | false => simp [hw, hne, hallF, hM]

/-- One full iteration from the closed-form state: with every source
nonempty and a benign display event, iteration t either continues to the
closed-form state of t+1, or breaks out exhausted exactly when every source
length is at most t. -/
theorem loopStep_stateAt (cfg : Config) (t : Nat)
    (Hn : cfg.streams.length = cfg.rows * cfg.cols)
    (Hr : 0 < cfg.rows) (Hc : 0 < cfg.cols)
    (Hne : ∀ s ∈ cfg.streams, s ≠ [])
    (Hb : cfg.preview = true → benignEvent (cfg.events t)) :
    loopStep cfg (stateAt cfg t) =
      if maxLen cfg ≤ t then .exhausted (postState cfg t)
      else .goOn (stateAt cfg (t + 1)) := by
  obtain ⟨g, himg, -, -⟩ := imgAt_exists cfg t Hn Hr Hc Hne
  have hpull : pullN cfg.resize (cfg.rows * cfg.cols) cfg.streams
      (cfg.streams.map (fun s => sourceStateAt s cfg.resize t)) =
      some (outsAt cfg t, cfg.streams.map (fun s => sourceStateAt s cfg.resize (t + 1))) := by
    rw [← Hn]
    exact pullN_closed cfg.resize cfg.streams t
  have himg2 : composeGrid cfg.rows cfg.cols ((outsAt cfg t).map Prod.fst) = some g := himg
  have hsh := shownAt_succ cfg t g himg
  by_cases hp : cfg.preview = true
  · obtain ⟨hshow, hwne, hw27, hpne, hpm1⟩ := Hb hp
    obtain ⟨k, hk⟩ := Option.ne_none_iff_exists'.mp hwne
    obtain ⟨v, hv⟩ := Option.ne_none_iff_exists'.mp hpne
    have hk27 : (k == (27 : Int)) = false := by
      apply beq_eq_false_iff_ne.mpr
      intro he
      exact hw27 (by rw [hk, he])
    have hvm1 : (v == (-1 : Int)) = false := by
      apply beq_eq_false_iff_ne.mpr
      intro he
      exact hpm1 (by rw [hv, he])
    cases hd : doIt cfg.every t with
    | true =>
      have hsh2 : shownAt cfg (t + 1) = shownAt cfg t ++ [g] := by
        rw [hsh]; simp [hp, hd]
      have had := afterDispatch_closed cfg t true g (shownAt cfg t ++ [g])
        (by rw [writtenAt_succ cfg t g himg, hd]) Hn Hr Hc
      simp only [loopStep, stateAt, hpull, himg2, hp, hd, hshow, hk, hk27, hv, hvm1]
      simp only [Bool.and_self, if_true]
      simp [had, postState, stateAt_succ_eq, hsh2]
    | false =>
      have hsh2 : shownAt cfg (t + 1) = shownAt cfg t := by
        rw [hsh]; simp [hd]
      have had := afterDispatch_closed cfg t false g (shownAt cfg t)
        (by rw [writtenAt_succ cfg t g himg, hd]) Hn Hr Hc
      simp only [loopStep, stateAt, hpull, himg2, hp, hd]
      simp only [Bool.and_false, Bool.false_eq_true, if_false]
      simp [had, postState, stateAt_succ_eq, hsh2]
  · have hp2 : cfg.preview = false := by
      cases hpv : cfg.preview with
      | true => exact absurd hpv hp
      | false => rfl
    have hsh2 : shownAt cfg (t + 1) = shownAt cfg t := by
      rw [hsh]; simp [hp2]
    have had := afterDispatch_closed cfg t (doIt cfg.every t) g (shownAt cfg t)
      (by rw [writtenAt_succ cfg t g himg]) Hn Hr Hc
    simp only [loopStep, stateAt, hpull, himg2, hp2]
    simp only [Bool.false_and, Bool.false_eq_true, if_false]
    simp [had, postState, stateAt_succ_eq, hsh2]

theorem runLoop_shift (cfg : Config) :
    ∀ (t : Nat),
      (∀ u, u < t → loopStep cfg (stateAt cfg u) = .goOn (stateAt cfg (u + 1))) →
      ∀ (f : Nat), runLoop cfg (t + f) (initLoop cfg) = runLoop cfg f (stateAt cfg t)
  | 0, _, f => by rw [stateAt_zero, Nat.zero_add]
  | t + 1, h, f => by
    have ih := runLoop_shift cfg t (fun u hu => h u (by omega)) (1 + f)
    have harith : t + 1 + f = t + (1 + f) := by omega
    rw [harith, ih]
    have hstep := h t (by omega)
    rw [Nat.add_comm 1 f]
    simp [runLoop, hstep]

theorem iterN_reach (cfg : Config) :
    ∀ (b a : Nat),
      (∀ u, a ≤ u → u < a + b → loopStep cfg (stateAt cfg u) = .goOn (stateAt cfg (u + 1))) →
      iterN cfg b (stateAt cfg a) = some (stateAt cfg (a + b))
  | 0, a, _ => by rw [Nat.add_zero]; rfl
  | b + 1, a, h => by
    have hstep := h a (Nat.le_refl a) (by omega)
    have ih := iterN_reach cfg b (a + 1) (fun u hu1 hu2 => h u (by omega) (by omega))
    have harith : a + 1 + b = a + (b + 1) := by omega
    rw [harith] at ih
    simp [iterN, hstep, ih]

/-- Under the loop invariants and benign display events, every iteration
strictly before maxLen continues. -/
theorem steps_continue (cfg : Config)
    (Hn : cfg.streams.length = cfg.rows * cfg.cols)
    (Hr : 0 < cfg.rows) (Hc : 0 < cfg.cols)
    (Hne : ∀ s ∈ cfg.streams, s ≠ [])
    (Hb : ∀ u, cfg.preview = true → benignEvent (cfg.events u)) :
    ∀ u, u < maxLen cfg → loopStep cfg (stateAt cfg u) = .goOn (stateAt cfg (u + 1)) := by
  intro u hu
  rw [loopStep_stateAt cfg u Hn Hr Hc Hne (Hb u)]
  rw [if_neg (by omega)]

theorem runLoop_finishes (cfg : Config)
    (Hn : cfg.streams.length = cfg.rows * cfg.cols)
    (Hr : 0 < cfg.rows) (Hc : 0 < cfg.cols)
    (Hne : ∀ s ∈ cfg.streams, s ≠ [])
    (Hb : ∀ u, cfg.preview = true → benignEvent (cfg.events u)) :
    runLoop cfg (maxLen cfg + 1) (initLoop cfg) = some (.finished (finalState cfg)) := by
  have hsteps := steps_continue cfg Hn Hr Hc Hne Hb
  have h1 := runLoop_shift cfg (maxLen cfg) hsteps 1
  rw [h1]
  have hstep := loopStep_stateAt cfg (maxLen cfg) Hn Hr Hc Hne (Hb _)
  rw [if_pos (Nat.le_refl _)] at hstep
  simp [runLoop, hstep, finalState]

theorem runLoop_fuel_short (cfg : Config) (f : Nat)
    (Hn : cfg.streams.length = cfg.rows * cfg.cols)
    (Hr : 0 < cfg.rows) (Hc : 0 < cfg.cols)
    (Hne : ∀ s ∈ cfg.streams, s ≠ [])
    (Hb : ∀ u, cfg.preview = true → benignEvent (cfg.events u))
    (hf : f ≤ maxLen cfg) :
    runLoop cfg f (initLoop cfg) = none := by
  have hsteps := steps_continue cfg Hn Hr Hc Hne Hb
  have h2 := runLoop_shift cfg f (fun u hu => hsteps u (by omega)) 0
  rw [Nat.add_zero] at h2
  rw [h2]
  rfl

/-- Claim C1 (corrected): with every source nonempty, no cancellation and
stride at least 1, the loop stops in the exhausted state, but only after
exactly maxLen plus one iterations — the run is still going after any
number of iterations up to maxLen, and the extra final iteration is the one
on which every source first reports isPastEnd together. -/
theorem claim1_loop_runs_maxlen_plus_one (cfg : Config) (f : Nat)
    (Hn : cfg.streams.length = cfg.rows * cfg.cols)
    (Hr : 0 < cfg.rows) (Hc : 0 < cfg.cols)
    (He : 0 < cfg.every)
    (Hne : ∀ s ∈ cfg.streams, s ≠ [])
    (Hb : ∀ u, cfg.preview = true → benignEvent (cfg.events u))
    (hf : f ≤ maxLen cfg) :
    runLoop cfg (maxLen cfg + 1) (initLoop cfg) = some (.finished (finalState cfg)) ∧
    runLoop cfg f (initLoop cfg) = none := by
  exact ⟨runLoop_finishes cfg Hn Hr Hc Hne Hb,
         runLoop_fuel_short cfg f Hn Hr Hc Hne Hb hf⟩

/-- Counterexample to C1 as stated: for the spec scenario itself — sources
of lengths 3, 5, 4, 6 on a 2 by 2 grid with stride 1 — after 6 iterations
of fuel the loop is still running, and it takes a 7th iteration to stop
exhausted, not the claimed 6. -/
theorem claim1_counterexample :
    runLoop cfg0 6 (initLoop cfg0) = none ∧
    runLoop cfg0 7 (initLoop cfg0) = some (.finished (finalState cfg0)) := by
  decide

/-- Witness for the amended C1 on the lengths 3, 5, 4, 6 scenario. -/
theorem claim1_witness :
    cfg0.streams.length = cfg0.rows * cfg0.cols ∧ 0 < cfg0.rows ∧ 0 < cfg0.cols ∧
    0 < cfg0.every ∧ (∀ s ∈ cfg0.streams, s ≠ []) ∧
    (∀ u, cfg0.preview = true → benignEvent (cfg0.events u)) ∧ 3 ≤ maxLen cfg0 ∧
    (runLoop cfg0 (maxLen cfg0 + 1) (initLoop cfg0) = some (.finished (finalState cfg0)) ∧
     runLoop cfg0 3 (initLoop cfg0) = none) := by
  refine ⟨by decide, by decide, by decide, by decide, by decide,
    fun u hp => absurd hp (by decide), by decide, ?_⟩
  exact claim1_loop_runs_maxlen_plus_one cfg0 3 (by decide) (by decide) (by decide)
    (by decide) (by decide) (fun u hp => absurd hp (by decide)) (by decide)

/-- Claim C6 (confirmed): the gate of line 110 opens exactly on iteration
indices that are multiples of the stride; an uncancelled run finishes and
its file-sink history is precisely the composites of the gated iterations
among 0..maxLen, in order. -/
theorem claim6_decimation (cfg : Config) (u : Nat)
    (Hn : cfg.streams.length = cfg.rows * cfg.cols)
    (Hr : 0 < cfg.rows) (Hc : 0 < cfg.cols)
    (He : 0 < cfg.every)
    (Hne : ∀ s ∈ cfg.streams, s ≠ [])
    (Hb : ∀ v, cfg.preview = true → benignEvent (cfg.events v))
    (Ho : cfg.output = true) :
    (doIt cfg.every u = true ↔ u % cfg.every = 0) ∧
    runLoop cfg (maxLen cfg + 1) (initLoop cfg) = some (.finished (finalState cfg)) ∧
    (finalState cfg).written =
      ((List.range (maxLen cfg + 1)).filter (fun i => doIt cfg.every i)).filterMap (imgAt cfg) := by
  refine ⟨by simp [doIt], runLoop_finishes cfg Hn Hr Hc Hne Hb, ?_⟩
  simp [finalState, postState, writtenAt, Ho]

/-- Witness for C6 on the stride-3 ten-iteration scenario: the gated
indices among 0..9 are exactly 0, 3, 6, 9 and exactly those four
composites are on file. -/
theorem claim6_witness :
    cfg1.streams.length = cfg1.rows * cfg1.cols ∧ 0 < cfg1.rows ∧ 0 < cfg1.cols ∧
    0 < cfg1.every ∧ (∀ s ∈ cfg1.streams, s ≠ []) ∧
    (∀ v, cfg1.preview = true → benignEvent (cfg1.events v)) ∧ cfg1.output = true ∧
    ((doIt cfg1.every 6 = true ↔ 6 % cfg1.every = 0) ∧
     runLoop cfg1 (maxLen cfg1 + 1) (initLoop cfg1) = some (.finished (finalState cfg1)) ∧
     (finalState cfg1).written =
       ((List.range (maxLen cfg1 + 1)).filter (fun i => doIt cfg1.every i)).filterMap (imgAt cfg1)) ∧
    (List.range (maxLen cfg1 + 1)).filter (fun i => doIt cfg1.every i) = [0, 3, 6, 9] ∧
    (finalState cfg1).written.length = 4 := by
  refine ⟨by decide, by decide, by decide, by decide, by decide,
    fun v hp => absurd hp (by decide), by decide, ?_, by decide, by decide⟩
  exact claim6_decimation cfg1 6 (by decide) (by decide) (by decide) (by decide)
    (by decide) (fun v hp => absurd hp (by decide)) (by decide)

theorem sourceStateAt_pulls (s : List RawFrame) (dim : Nat × Nat) (t : Nat) :
    (sourceStateAt s dim t).pulls = t := by
  by_cases h : t ≤ s.length
  · simp [sourceStateAt, h]
  · simp [sourceStateAt, h]

/-- Claim C7 (confirmed): for any stride e, after t complete iterations
every source has been pulled exactly t times and the source states and the
recorded exhaustion flags equal closed forms that do not mention the
stride at all — the gate affects only sink dispatch, never source
advancement or exhaustion detection. -/
theorem claim7_gate_independent_advance (cfg : Config) (t e : Nat)
    (Hn : cfg.streams.length = cfg.rows * cfg.cols)
    (Hr : 0 < cfg.rows) (Hc : 0 < cfg.cols)
    (He : 0 < e)
    (Hne : ∀ s ∈ cfg.streams, s ≠ [])
    (Hb : ∀ u, cfg.preview = true → benignEvent (cfg.events u))
    (ht : t ≤ maxLen cfg) :
    iterN { cfg with every := e } t (initLoop { cfg with every := e })
        = some (stateAt { cfg with every := e } t) ∧
    (stateAt { cfg with every := e } t).srcStates
        = cfg.streams.map (fun s => sourceStateAt s cfg.resize t) ∧
    (∀ st ∈ (stateAt { cfg with every := e } t).srcStates, st.pulls = t) ∧
    (stateAt { cfg with every := e } t).endeds
        = if t = 0 then [] else cfg.streams.map (fun s => decide (s.length ≤ t - 1)) := by
  have hsteps : ∀ u, u < t →
      loopStep { cfg with every := e } (stateAt { cfg with every := e } u)
        = .goOn (stateAt { cfg with every := e } (u + 1)) := by
    intro u hu
    have := steps_continue { cfg with every := e } Hn Hr Hc Hne Hb u
      (by simp only [maxLen] at ht ⊢; omega)
    exact this
  refine ⟨?_, rfl, ?_, ?_⟩
  · have := iterN_reach { cfg with every := e } t 0 (fun u hu1 hu2 => hsteps u (by omega))
    rw [stateAt_zero] at this
    simpa using this
  · intro st hst
    simp only [stateAt] at hst
    obtain ⟨s, hs, he⟩ := List.mem_map.mp hst
    rw [← he]
    exact sourceStateAt_pulls s cfg.resize t
  · by_cases h0 : t = 0
    · simp [stateAt, h0]
    · simp only [stateAt, h0, if_false, outsAt, List.map_map]
      have hfun : (Prod.snd ∘ fun s => sourceOut s cfg.resize (t - 1))
          = (fun s : List RawFrame => decide (s.length ≤ t - 1)) := by
        funext s
        exact sourceOut_snd s cfg.resize (t - 1)
      rw [hfun]

/-- Witness for C7 on the 2 by 2 scenario with stride 2 after 4
iterations. -/
theorem claim7_witness :
    cfg0.streams.length = cfg0.rows * cfg0.cols ∧ 0 < cfg0.rows ∧ 0 < cfg0.cols ∧
    0 < 2 ∧ (∀ s ∈ cfg0.streams, s ≠ []) ∧
    (∀ u, cfg0.preview = true → benignEvent (cfg0.events u)) ∧ 4 ≤ maxLen cfg0 ∧
    (iterN { cfg0 with every := 2 } 4 (initLoop { cfg0 with every := 2 })
        = some (stateAt { cfg0 with every := 2 } 4) ∧
     (stateAt { cfg0 with every := 2 } 4).srcStates
        = cfg0.streams.map (fun s => sourceStateAt s cfg0.resize 4) ∧
     (∀ st ∈ (stateAt { cfg0 with every := 2 } 4).srcStates, st.pulls = 4) ∧
     (stateAt { cfg0 with every := 2 } 4).endeds
        = if 4 = 0 then [] else cfg0.streams.map (fun s => decide (s.length ≤ 4 - 1))) := by
  refine ⟨by decide, by decide, by decide, by decide, by decide,
    fun u hp => absurd hp (by decide), by decide, ?_⟩
  exact claim7_gate_independent_advance cfg0 4 2 (by decide) (by decide) (by decide)
    (by decide) (by decide) (fun u hp => absurd hp (by decide)) (by decide)

/- ---------------------------------------------------------------------
   Cancellation and the sinks: claims C2, C8, C10.
   --------------------------------------------------------------------- -/

theorem filterMap_length_of_some {α β : Type} (f : α → Option β) :
    ∀ (l : List α), (∀ a ∈ l, (f a).isSome = true) → (l.filterMap f).length = l.length
  | [], _ => rfl
  | a :: l, h => by
    obtain ⟨b, hb⟩ := Option.isSome_iff_exists.mp (h a (List.mem_cons_self a l))
    have ih := filterMap_length_of_some f l (fun x hx => h x (List.mem_cons_of_mem a hx))
    simp [List.filterMap_cons, hb, ih]

/-- Any of the three cancellation signals of lines 128-133 — ESC, a closed
window, or a cv2.error caught inside the try — observed on a gated
iteration breaks out of the loop right there, after the imshow but before
the writer.write of line 136. -/
theorem loopStep_cancel (cfg : Config) (t : Nat)
    (Hn : cfg.streams.length = cfg.rows * cfg.cols)
    (Hr : 0 < cfg.rows) (Hc : 0 < cfg.cols)
    (Hne : ∀ s ∈ cfg.streams, s ≠ [])
    (Hp : cfg.preview = true)
    (Hgate : doIt cfg.every t = true)
    (Hcv : cancelEvent (cfg.events t)) :
    loopStep cfg (stateAt cfg t) = .cancelled (cancelStateAt cfg t) := by
  obtain ⟨Hshow, hdisj⟩ := Hcv
  obtain ⟨g, himg, -, -⟩ := imgAt_exists cfg t Hn Hr Hc Hne
  have hpull : pullN cfg.resize (cfg.rows * cfg.cols) cfg.streams
      (cfg.streams.map (fun s => sourceStateAt s cfg.resize t)) =
      some (outsAt cfg t, cfg.streams.map (fun s => sourceStateAt s cfg.resize (t + 1))) := by
    rw [← Hn]
    exact pullN_closed cfg.resize cfg.streams t
  have himg2 : composeGrid cfg.rows cfg.cols ((outsAt cfg t).map Prod.fst) = some g := himg
  have hsh2 : shownAt cfg (t + 1) = shownAt cfg t ++ [g] := by
    rw [shownAt_succ cfg t g himg]
    simp [Hp, Hgate]
  rcases hdisj with hwn | hw27 | ⟨hwne, hw27n, hpd⟩
  · simp only [loopStep, stateAt, hpull, himg2, Hp, Hgate, Hshow, hwn]
    simp [cancelStateAt, hsh2]
  · simp only [loopStep, stateAt, hpull, himg2, Hp, Hgate, Hshow, hw27]
    simp [cancelStateAt, hsh2]
  · obtain ⟨kk, hk⟩ := Option.ne_none_iff_exists'.mp hwne
    have hkne : (kk == (27 : Int)) = false := by
      apply beq_eq_false_iff_ne.mpr
      intro he
      exact hw27n (by rw [hk, he])
    rcases hpd with hpn | hpm
    · simp only [loopStep, stateAt, hpull, himg2, Hp, Hgate, Hshow, hk, hkne, hpn]
      simp [cancelStateAt, hsh2]
    · simp only [loopStep, stateAt, hpull, himg2, Hp, Hgate, Hshow, hk, hkne, hpm]
      simp [cancelStateAt, hsh2]

/-- Claim C2 (corrected): with a file sink, preview and stride 1, a
cancellation signal observed at gated iteration k — any of the three: the
cancel keystroke, the window being closed, or a cv2.error caught inside the
try block — ends the loop as interrupted with exactly the k composites of
iterations 0..k-1 on file: the cancellation-iteration composite is shown
but never written, because the break of lines 128-133 precedes the write of
line 136. -/
theorem claim2_cancel_skips_current_write (cfg : Config) (k f : Nat)
    (Hn : cfg.streams.length = cfg.rows * cfg.cols)
    (Hr : 0 < cfg.rows) (Hc : 0 < cfg.cols)
    (Hne : ∀ s ∈ cfg.streams, s ≠ [])
    (He : cfg.every = 1) (Ho : cfg.output = true) (Hp : cfg.preview = true)
    (hk : k ≤ maxLen cfg)
    (Hb : ∀ u, u < k → benignEvent (cfg.events u))
    (Hcv : cancelEvent (cfg.events k)) :
    runLoop cfg (k + 1 + f) (initLoop cfg) = some (.interrupted (cancelStateAt cfg k)) ∧
    (cancelStateAt cfg k).written.length = k := by
  constructor
  · have hsteps : ∀ u, u < k → loopStep cfg (stateAt cfg u) = .goOn (stateAt cfg (u + 1)) := by
      intro u hu
      rw [loopStep_stateAt cfg u Hn Hr Hc Hne (fun _ => Hb u hu)]
      rw [if_neg (by omega)]
    have hshift := runLoop_shift cfg k hsteps (1 + f)
    have harith : k + 1 + f = k + (1 + f) := by omega
    rw [harith, hshift, Nat.add_comm 1 f]
    have hcancel := loopStep_cancel cfg k Hn Hr Hc Hne Hp
      (by rw [He]; simp [doIt, Nat.mod_one]) Hcv
    simp [runLoop, hcancel]
  · have hall : ∀ u ∈ List.range k, (imgAt cfg u).isSome = true := by
      intro u _
      obtain ⟨g, hg, -, -⟩ := imgAt_exists cfg u Hn Hr Hc Hne
      simp [hg]
    have hfilter : (List.range k).filter (fun u => doIt cfg.every u) = List.range k := by
      apply List.filter_eq_self.mpr
      intro u _
      rw [He]
      simp [doIt, Nat.mod_one]
    simp only [cancelStateAt, writtenAt, Ho, if_true, hfilter]
    rw [filterMap_length_of_some (imgAt cfg) (List.range k) hall]
    exact List.length_range k

/-- Counterexample to C2 as stated: in the spec scenario itself — a
ten-frame source, stride 1, file sink, cancellation observed at gated
iteration 4 — the file holds exactly 4 composites (iterations 0..3), not
the claimed 5. -/
theorem claim2_counterexample :
    runLoop cfg2 20 (initLoop cfg2) = some (.interrupted (cancelStateAt cfg2 4)) ∧
    (cancelStateAt cfg2 4).written.length = 4 ∧
    ¬ (cancelStateAt cfg2 4).written.length = 5 := by
  decide

/-- Witness for the amended C2 on the window-close variant of the
scenario: the user closing the preview window at iteration 4 likewise
leaves exactly 4 composites on file (the ESC variant is the concrete
counterexample run). -/
theorem claim2_witness :
    cfg5.streams.length = cfg5.rows * cfg5.cols ∧ 0 < cfg5.rows ∧ 0 < cfg5.cols ∧
    (∀ s ∈ cfg5.streams, s ≠ []) ∧
    cfg5.every = 1 ∧ cfg5.output = true ∧ cfg5.preview = true ∧ 4 ≤ maxLen cfg5 ∧
    (∀ u, u < 4 → benignEvent (cfg5.events u)) ∧
    cancelEvent (cfg5.events 4) ∧
    (runLoop cfg5 (4 + 1 + 15) (initLoop cfg5) = some (.interrupted (cancelStateAt cfg5 4)) ∧
     (cancelStateAt cfg5 4).written.length = 4) := by
  have hb : ∀ u, u < 4 → benignEvent (cfg5.events u) := by
    intro u hu
    have he : cfg5.events u = benignEv := by
      simp only [cfg5]
      rw [if_pos hu]
    rw [he]
    decide
  refine ⟨by decide, by decide, by decide, by decide, by decide, by decide, by decide,
    by decide, hb, by decide, ?_⟩
  exact claim2_cancel_skips_current_write cfg5 4 15 (by decide) (by decide) (by decide)
    (by decide) (by decide) (by decide) (by decide) (by decide) hb (by decide)

/-- Claim C8 (confirmed): whenever the loop ends by cancellation with a
file sink configured, run() still releases the writer (the file is
finalized and the composites written so far are preserved, never deleted),
prints the interruption warning, and exits with code 1 (lines 150-155). -/
theorem claim8_interrupted_epilogue (cfg : Config) (st : LoopState) (fuel : Nat)
    (Ho : cfg.output = true)
    (h : runLoop cfg fuel (initLoop cfg) = some (.interrupted st)) :
    run cfg fuel = some (some ⟨true, st.written, true, 1⟩) := by
  simp [run, h, epilogue, Ho]

/-- Witness for C8: a run cancelled at iteration 1 with one composite
already on file keeps that composite, finalizes, warns and exits 1. -/
theorem claim8_witness :
    cfg4.output = true ∧
    runLoop cfg4 9 (initLoop cfg4) = some (.interrupted (cancelStateAt cfg4 1)) ∧
    (cancelStateAt cfg4 1).written.length = 1 ∧
    run cfg4 9 = some (some ⟨true, (cancelStateAt cfg4 1).written, true, 1⟩) := by
  refine ⟨by decide, by decide, by decide, ?_⟩
  exact claim8_interrupted_epilogue cfg4 (cancelStateAt cfg4 1) 9 (by decide) (by decide)

/-- Claim C10 (corrected): on a gated preview iteration, a cv2.error
raised by waitKey or by getWindowProperty is caught and ends the loop as a
cancellation, but a cv2.error raised by imshow is outside the try block of
lines 127-133 and propagates out of run() as an exception. -/
theorem claim10_show_error_propagates (cfg : Config) (st : LoopState)
    (outs : List (Option Frame × Bool)) (sts1 : List SourceState) (img : Frame) (k : Int)
    (Hp : cfg.preview = true)
    (Hd : doIt cfg.every st.nbFrames = true)
    (hpull : pullN cfg.resize (cfg.rows * cfg.cols) cfg.streams st.srcStates
              = some (outs, sts1))
    (himg : composeGrid cfg.rows cfg.cols (outs.map Prod.fst) = some img) :
    ((cfg.events st.nbFrames).showOk = false → loopStep cfg st = .errored) ∧
    ((cfg.events st.nbFrames).showOk = true → (cfg.events st.nbFrames).wait = none →
      loopStep cfg st = .cancelled
        { st with srcStates := sts1, endeds := outs.map Prod.snd,
                  shown := st.shown ++ [img] }) ∧
    ((cfg.events st.nbFrames).showOk = true → (cfg.events st.nbFrames).wait = some k →
      k ≠ 27 → (cfg.events st.nbFrames).prop = none →
      loopStep cfg st = .cancelled
        { st with srcStates := sts1, endeds := outs.map Prod.snd,
                  shown := st.shown ++ [img] }) := by
  refine ⟨?_, ?_, ?_⟩
  · intro hsf
    simp [loopStep, hpull, himg, Hp, Hd, hsf]
  · intro hso hwn
    simp [loopStep, hpull, himg, Hp, Hd, hso, hwn]
  · intro hso hwk hk27 hpn
    have hkb : (k == (27 : Int)) = false := beq_eq_false_iff_ne.mpr hk27
    simp [loopStep, hpull, himg, Hp, Hd, hso, hwk, hkb, hpn]

/-- Counterexample to C10 as stated: with a display provider whose imshow
raises from the first gated iteration, the loop does not exit as a
cancellation (no interrupted result with finished=false): the run aborts
with the propagated exception. -/
theorem claim10_counterexample :
    runLoop cfg3 9 (initLoop cfg3) = some .errored ∧
    run cfg3 9 = some none := by
  decide

/-- Witness for the amended C10 at the first iteration of the
show-error scenario. -/
theorem claim10_witness :
    cfg3.preview = true ∧ doIt cfg3.every (initLoop cfg3).nbFrames = true ∧
    pullN cfg3.resize (cfg3.rows * cfg3.cols) cfg3.streams (initLoop cfg3).srcStates
      = some ([(some ⟨4, 4, 500⟩, false)], [⟨false, some ⟨4, 4, 500⟩, 1, 1, 1⟩]) ∧
    composeGrid cfg3.rows cfg3.cols ([((some ⟨4, 4, 500⟩ : Option Frame), false)].map Prod.fst)
      = some ⟨4, 4, 500⟩ ∧
    (((cfg3.events (initLoop cfg3).nbFrames).showOk = false →
        loopStep cfg3 (initLoop cfg3) = .errored) ∧
     ((cfg3.events (initLoop cfg3).nbFrames).showOk = true →
        (cfg3.events (initLoop cfg3).nbFrames).wait = none →
        loopStep cfg3 (initLoop cfg3) = .cancelled
          { initLoop cfg3 with
              srcStates := [⟨false, some ⟨4, 4, 500⟩, 1, 1, 1⟩],
              endeds := [(some (⟨4, 4, 500⟩ : Frame), false)].map Prod.snd,
              shown := (initLoop cfg3).shown ++ [⟨4, 4, 500⟩] }) ∧
     ((cfg3.events (initLoop cfg3).nbFrames).showOk = true →
        (cfg3.events (initLoop cfg3).nbFrames).wait = some 0 →
        (0 : Int) ≠ 27 → (cfg3.events (initLoop cfg3).nbFrames).prop = none →
        loopStep cfg3 (initLoop cfg3) = .cancelled
          { initLoop cfg3 with
              srcStates := [⟨false, some ⟨4, 4, 500⟩, 1, 1, 1⟩],
              endeds := [(some (⟨4, 4, 500⟩ : Frame), false)].map Prod.snd,
              shown := (initLoop cfg3).shown ++ [⟨4, 4, 500⟩] })) := by
  refine ⟨by decide, by decide, by decide, by decide, ?_⟩
  exact claim10_show_error_propagates cfg3 (initLoop cfg3)
    [(some ⟨4, 4, 500⟩, false)] [⟨false, some ⟨4, 4, 500⟩, 1, 1, 1⟩] ⟨4, 4, 500⟩ 0
    (by decide) (by decide) (by decide) (by decide)
